import Mathlib

/-!
Verification of the ibmpc_usb converter (tmk_keyboard):
shallow embedding of `unimap_trans.h` / the converter C source
(matrix state, the Scan Code Set 2 decoder `process_cs2`,
keyboard identification `read_keyboard_id` and its classification,
and the action resolver `action_for_key`), with theorems checking
the spec's statements about them.

Machine integers are modelled as `Nat`; each matrix row is a
`uint8_t` in the C source, so row values are below 256 in every
reachable state, and theorems that need this carry it as an
explicit hypothesis.
-/

namespace IbmpcUsb

/-- `MATRIX_ROWS` for this converter: 32 rows of 8 columns (256 cells). -/
def MATRIX_ROWS : Nat := 32

/-- `#define ROW(code) (code>>3)` -/
def ROW (code : Nat) : Nat := code >>> 3

/-- `#define COL(code) (code&0x07)` -/
def COL (code : Nat) : Nat := code &&& 0x07

/-- `#define F7 (0x83)` : matrix position for the F7 key. -/
def F7 : Nat := 0x83

/-- `#define PRINT_SCREEN (0xFC)` -/
def PRINT_SCREEN : Nat := 0xFC

/-- `#define PAUSE (0xFE)` -/
def PAUSE : Nat := 0xFE

/-- The matrix: `static uint8_t matrix[MATRIX_ROWS]`, a list of 32 row bytes. -/
abbrev Matrix := List Nat

/-- `matrix_is_on(row, col)`: `matrix[row] & (1<<col)` as a truth value. -/
def matrix_is_on (m : Matrix) (row col : Nat) : Bool :=
  (m.getD row 0) &&& (1 <<< col) != 0

/-- `matrix_make(code)`: set bit `COL code` of row `ROW code` unless already on. -/
def matrix_make (m : Matrix) (code : Nat) : Matrix :=
  if matrix_is_on m (ROW code) (COL code) then m
  else m.set (ROW code) ((m.getD (ROW code) 0) ||| (1 <<< COL code))

/-- `matrix_break(code)`: clear bit `COL code` of row `ROW code` if on.
The C clears with `&= ~(1<<col)` on a `uint8_t` row, i.e. an AND with the
8-bit complement `0xFF ^ (1<<col)`. -/
def matrix_break (m : Matrix) (code : Nat) : Matrix :=
  if matrix_is_on m (ROW code) (COL code) then
    m.set (ROW code) ((m.getD (ROW code) 0) &&& (0xFF ^^^ (1 <<< COL code)))
  else m

/-- `matrix_clear()`: all 32 rows zero. -/
def matrix_clear : Matrix := List.replicate MATRIX_ROWS 0

/-- The decoder states of `process_cs2`. -/
inductive CS2State
  | INIT | F0 | E0 | E0_F0
  | E1 | E1_14 | E1_14_77 | E1_14_77_E1 | E1_14_77_E1_F0
  | E1_14_77_E1_F0_14 | E1_14_77_E1_F0_14_F0
  | E0_7E | E0_7E_E0 | E0_7E_E0_F0
  deriving DecidableEq, Repr

/-- Result of one `process_cs2` call: the matrix and decoder state after the
call, the `int8_t` return value, and whether the host's `clear_keyboard()`
primitive was invoked during the call. -/
structure CS2Result where
  matrix : Matrix
  state : CS2State
  ret : Int
  clearKbd : Bool
  deriving DecidableEq, Repr

/-- The big `switch (state)` of `process_cs2`, acting on a consumed byte
(after the Pause pseudo-break pre-step). -/
def cs2_step (m : Matrix) (st : CS2State) (code : Nat) : CS2Result :=
  match st with
  | .INIT =>
      if code = 0xE0 then ⟨m, .E0, 0, false⟩
      else if code = 0xF0 then ⟨m, .F0, 0, false⟩
      else if code = 0xE1 then ⟨m, .E1, 0, false⟩
      else if code = 0x83 then ⟨matrix_make m F7, .INIT, 0, false⟩
      else if code = 0x84 then ⟨matrix_make m PRINT_SCREEN, .INIT, 0, false⟩
      else if code = 0x00 then ⟨matrix_clear, .INIT, 0, true⟩
      else if code = 0xAA ∨ code = 0xFC then ⟨m, .INIT, -1, false⟩
      else if code < 0x80 then ⟨matrix_make m code, .INIT, 0, false⟩
      else ⟨matrix_clear, .INIT, 0, true⟩
  | .E0 =>
      if code = 0x12 ∨ code = 0x59 then ⟨m, .INIT, 0, false⟩
      else if code = 0x7E then ⟨m, .E0_7E, 0, false⟩
      else if code = 0xF0 then ⟨m, .E0_F0, 0, false⟩
      else if code < 0x80 then ⟨matrix_make m (code ||| 0x80), .INIT, 0, false⟩
      else ⟨matrix_clear, .INIT, 0, true⟩
  | .F0 =>
      if code = 0x83 then ⟨matrix_break m F7, .INIT, 0, false⟩
      else if code = 0x84 then ⟨matrix_break m PRINT_SCREEN, .INIT, 0, false⟩
      else if code < 0x80 then ⟨matrix_break m code, .INIT, 0, false⟩
      else ⟨matrix_clear, .INIT, 0, true⟩
  | .E0_F0 =>
      if code = 0x12 ∨ code = 0x59 then ⟨m, .INIT, 0, false⟩
      else if code < 0x80 then ⟨matrix_break m (code ||| 0x80), .INIT, 0, false⟩
      else ⟨matrix_clear, .INIT, 0, true⟩
  | .E1 =>
      if code = 0x14 then ⟨m, .E1_14, 0, false⟩ else ⟨m, .INIT, 0, false⟩
  | .E1_14 =>
      if code = 0x77 then ⟨m, .E1_14_77, 0, false⟩ else ⟨m, .INIT, 0, false⟩
  | .E1_14_77 =>
      if code = 0xE1 then ⟨m, .E1_14_77_E1, 0, false⟩ else ⟨m, .INIT, 0, false⟩
  | .E1_14_77_E1 =>
      if code = 0xF0 then ⟨m, .E1_14_77_E1_F0, 0, false⟩ else ⟨m, .INIT, 0, false⟩
  | .E1_14_77_E1_F0 =>
      if code = 0x14 then ⟨m, .E1_14_77_E1_F0_14, 0, false⟩ else ⟨m, .INIT, 0, false⟩
  | .E1_14_77_E1_F0_14 =>
      if code = 0xF0 then ⟨m, .E1_14_77_E1_F0_14_F0, 0, false⟩ else ⟨m, .INIT, 0, false⟩
  | .E1_14_77_E1_F0_14_F0 =>
      if code = 0x77 then ⟨matrix_make m PAUSE, .INIT, 0, false⟩ else ⟨m, .INIT, 0, false⟩
  | .E0_7E =>
      if code = 0xE0 then ⟨m, .E0_7E_E0, 0, false⟩ else ⟨m, .INIT, 0, false⟩
  | .E0_7E_E0 =>
      if code = 0xF0 then ⟨m, .E0_7E_E0_F0, 0, false⟩ else ⟨m, .INIT, 0, false⟩
  | .E0_7E_E0_F0 =>
      if code = 0x7E then ⟨matrix_make m PAUSE, .INIT, 0, false⟩ else ⟨m, .INIT, 0, false⟩

/-- The 'pseudo break code' hack at the top of `process_cs2`:
`if (matrix_is_on(ROW(PAUSE), COL(PAUSE))) matrix_break(PAUSE);` -/
def pause_prestep (m : Matrix) : Matrix :=
  if matrix_is_on m (ROW PAUSE) (COL PAUSE) then matrix_break m PAUSE else m

/-- One full call of `process_cs2`. The receive source is modelled as an
`Option Nat`: `none` when `ibmpc_host_recv()` returns `-1` (no byte
available), `some code` when it yields a byte. -/
def process_cs2 (m : Matrix) (st : CS2State) (inp : Option Nat) : CS2Result :=
  let m1 := pause_prestep m
  match inp with
  | none => ⟨m1, st, 0, false⟩
  | some code => cs2_step m1 st code

/-- Result of feeding a whole byte list to the decoder, calling
`process_cs2` once per byte; `clearKbd` records whether any call in the
run invoked the host's `clear_keyboard()`. -/
structure CS2Run where
  matrix : Matrix
  state : CS2State
  clearKbd : Bool
  deriving DecidableEq, Repr

/-- Feed a list of bytes to the decoder, one `process_cs2` call per byte. -/
def process_run (m : Matrix) (st : CS2State) : List Nat → CS2Run
  | [] => ⟨m, st, false⟩
  | b :: rest =>
      let r := process_cs2 m st (some b)
      let rec' := process_run r.matrix r.state rest
      ⟨rec'.matrix, rec'.state, r.clearKbd || rec'.clearKbd⟩

/-- `x & 0xFF` on a two's-complement `int16_t` value, i.e. `x mod 256`
(so `(-1) & 0xFF = 0xFF`). Used by `read_keyboard_id` on the results of
`read_wait`, which are `-1` on timeout or a received byte. -/
def maskFF (x : Int) : Nat := (x % 256).toNat

/-- Result of `read_keyboard_id`: the 16-bit keyboard ID it returns and the
list of bytes it sent to the keyboard via `ibmpc_host_send`, in order. -/
structure ReadIdResult where
  id : Nat
  sends : List Nat
  deriving DecidableEq, Repr

/-- `read_keyboard_id`. The environment's responses are passed in:
`f5resp` is the result of `ibmpc_host_send(0xF5)` (unused by the code),
`f2resp` the result of `ibmpc_host_send(0xF2)` (`-1` on send failure),
`r1` and `r2` the results of the two `read_wait(1000)` calls (`-1` on
timeout, otherwise the received byte). -/
def read_keyboard_id (f5resp f2resp r1 r2 : Int) : ReadIdResult :=
  let _ := f5resp
  if f2resp = -1 then ⟨0xFFFF, [0xF5, 0xF2]⟩           -- XT or no keyboard
  else if f2resp ≠ 0xFA then ⟨0xFFFE, [0xF5, 0xF2]⟩    -- broken PS/2?
  else if r1 = -1 then ⟨0x0000, [0xF5, 0xF2]⟩          -- AT
  else ⟨(maskFF r1 <<< 8) ||| maskFF r2, [0xF5, 0xF2, 0xF4]⟩

/-- `keyboard_kind` values: `enum { NONE, PC_XT, PC_AT, PC_TERMINAL, OTHER }`. -/
inductive KeyboardKind
  | NONE | PC_XT | PC_AT | PC_TERMINAL | OTHER
  deriving DecidableEq, Repr

/-- The wire protocol selected after identification.
Modelled from the spec: the constants `IBMPC_PROTOCOL_AT` and
`IBMPC_PROTOCOL_XT` live in `ibmpc.h`, which is not part of this source;
only the choice between the two matters here. -/
inductive IBMPCProtocol
  | AT | XT
  deriving DecidableEq, Repr

/-- The `READ_ID` classification chain of `matrix_scan`: derive the
keyboard family from the 16-bit `keyboard_id`. -/
def readid_classify (id : Nat) : KeyboardKind :=
  if (id &&& 0xFF00) = 0xAB00 then .PC_AT             -- CodeSet2 PS/2
  else if (id &&& 0xFF00) = 0xBF00 then .PC_TERMINAL  -- CodeSet3 Terminal
  else if id = 0x0000 then .PC_AT                     -- CodeSet2 AT
  else if id = 0xFFFF then .PC_XT                     -- CodeSet1 XT
  else if id = 0xFFFE then .PC_AT                     -- PS/2 fails to response?
  else if id = 0x00FF then .NONE                      -- mouse not supported
  else .PC_AT

/-- The protocol selection that follows the classification in
`matrix_scan`: XT protocol for the XT family, AT protocol otherwise. -/
def protocol_for_kind (k : KeyboardKind) : IBMPCProtocol :=
  if k = .PC_XT then .XT
  else if k = .PC_AT then .AT
  else if k = .PC_TERMINAL then .AT
  else .AT

/-- The classification of §4.4 of the spec, written from the spec's words:
a high byte of `0xAB` is AT, a high byte of `0xBF` is Terminal, `0x0000`
is 84-key AT, `0xFFFF` is XT, `0xFFFE` is AT, `0x00FF` is a refused
mouse, and anything else defaults to AT. -/
def spec_classify (id : Nat) : KeyboardKind :=
  if id >>> 8 = 0xAB then .PC_AT
  else if id >>> 8 = 0xBF then .PC_TERMINAL
  else if id = 0x0000 then .PC_AT
  else if id = 0xFFFF then .PC_XT
  else if id = 0xFFFE then .PC_AT
  else if id = 0x00FF then .NONE
  else .PC_AT

/-- The compile-time environment of `action_for_key`: the three translation
tables `unimap_cs1/cs2/cs3`, the layered action table `actionmaps`, the
`UNIMAP_NO` sentinel and the `ACTION_NO` action value.
Modelled from the spec: the numeric values of the `UNIMAP_*` and
`ACTION_NO` constants live in `unimap.h` / `action.h`, which are not part
of this source; per §3 of the spec a UKP is a byte whose high nibble
addresses one of 8 universal rows, so every non-sentinel table entry is
below `0x80` (hypothesis `ukp_lt` where needed). Actions are opaque and
modelled as `Nat`. -/
structure UnimapEnv where
  cs1 : Nat → Nat → Nat
  cs2 : Nat → Nat → Nat
  cs3 : Nat → Nat → Nat
  actionmaps : Nat → Nat → Nat → Nat
  UNIMAP_NO : Nat
  ACTION_NO : Nat

/-- `action_for_key(layer, key)`: translate `(row, col)` through the table
of the active family, bail out on an unset family or the `NO` sentinel,
and otherwise index `actionmaps[layer][(pos & 0x70) >> 4][pos & 0x0F]`. -/
def action_for_key (env : UnimapEnv) (kind : KeyboardKind) (layer row col : Nat) : Nat :=
  let pos? : Option Nat :=
    match kind with
    | .PC_XT => some (env.cs1 row col)
    | .PC_AT => some (env.cs2 row col)
    | .PC_TERMINAL => some (env.cs3 row col)
    | _ => none
  match pos? with
  | none => env.ACTION_NO
  | some pos =>
      if pos = env.UNIMAP_NO then env.ACTION_NO
      else env.actionmaps layer ((pos &&& 0x70) >>> 4) (pos &&& 0x0F)

/-- The decoder states that are part of the Pause (`E1 14 77 E1 F0 14 F0 77`)
or Control'd-Pause (`E0 7E E0 F0 7E`) sequences. -/
def pause_states : List CS2State :=
  [.E1, .E1_14, .E1_14_77, .E1_14_77_E1, .E1_14_77_E1_F0,
   .E1_14_77_E1_F0_14, .E1_14_77_E1_F0_14_F0,
   .E0_7E, .E0_7E_E0, .E0_7E_E0_F0]

/-- The next byte a Pause-sequence state accepts (meaningless `0` for the
states that are not part of a Pause sequence). -/
def expected_byte : CS2State → Nat
  | .E1 => 0x14
  | .E1_14 => 0x77
  | .E1_14_77 => 0xE1
  | .E1_14_77_E1 => 0xF0
  | .E1_14_77_E1_F0 => 0x14
  | .E1_14_77_E1_F0_14 => 0xF0
  | .E1_14_77_E1_F0_14_F0 => 0x77
  | .E0_7E => 0xE0
  | .E0_7E_E0 => 0xF0
  | .E0_7E_E0_F0 => 0x7E
  | _ => 0

/-- Whether consuming `inp` in decoder state `st` completes one of the two
Pause sequences (the only transitions that perform `matrix_make(PAUSE)`). -/
def completes_pause (st : CS2State) (inp : Option Nat) : Bool :=
  (st == .E1_14_77_E1_F0_14_F0 && inp == some 0x77) ||
  (st == .E0_7E_E0_F0 && inp == some 0x7E)

theorem matrix_is_on_eq_testBit (m : Matrix) (r c : Nat) :
    matrix_is_on m r c = (m.getD r 0).testBit c := by
  unfold matrix_is_on
  rw [Nat.one_shiftLeft, Nat.and_two_pow]
  cases h : (m.getD r 0).testBit c
  · simp
  · simp [(Nat.two_pow_pos c).ne']

/-- C3: `process_cs2` returns `-1` exactly when it consumes `0xAA` or
`0xFC` in the `Init` decoder state; in every other case (including when no
byte is available) it returns `0`. -/
theorem process_cs2_ret_eq (m : Matrix) (st : CS2State) (inp : Option Nat) :
    (process_cs2 m st inp).ret =
      if st = .INIT ∧ (inp = some 0xAA ∨ inp = some 0xFC) then (-1 : Int) else 0 := by
  rcases inp with _ | code
  · cases st <;> simp [process_cs2]
  · cases st <;> simp only [process_cs2, cs2_step] <;> split_ifs <;> simp_all

theorem and_ff00_eq (id : Nat) (h : id < 65536) :
    id &&& 0xFF00 = (id >>> 8) <<< 8 := by
  have h2 : (0xFF00 : Nat) = (2 ^ 8 - 1) <<< 8 := by decide
  apply Nat.eq_of_testBit_eq
  intro i
  rw [Nat.testBit_and, h2, Nat.testBit_shiftLeft, Nat.testBit_shiftLeft,
    Nat.testBit_shiftRight, Nat.testBit_two_pow_sub_one]
  rcases Nat.lt_or_ge i 8 with h8 | h8
  · simp [show ¬ (8 ≤ i) from by omega]
  · have he : 8 + (i - 8) = i := by omega
    rw [he]
    rcases Nat.lt_or_ge i 16 with h16 | h16
    · simp [show (8 : Nat) ≤ i from h8, show i - 8 < 8 from by omega, Bool.and_comm]
    · have h216 : (65536 : Nat) ≤ 2 ^ i := by
        calc (65536 : Nat) = 2 ^ 16 := by norm_num
        _ ≤ 2 ^ i := Nat.pow_le_pow_right (by norm_num) h16
      have hbf : id.testBit i = false := Nat.testBit_lt_two_pow (lt_of_lt_of_le h h216)
      simp [hbf]

theorem hi_byte_iff (id b : Nat) (h : id < 65536) :
    id &&& 0xFF00 = b <<< 8 ↔ id >>> 8 = b := by
  rw [and_ff00_eq id h, Nat.shiftLeft_eq, Nat.shiftLeft_eq]
  constructor
  · intro he
    exact Nat.eq_of_mul_eq_mul_right (by norm_num) he
  · intro he
    rw [he]

/-- C5: the `READ_ID` classification maps every 16-bit keyboard ID to the
family the spec states (high byte `0xAB` to AT, high byte `0xBF` to
Terminal, `0x0000` to AT, `0xFFFF` to XT, `0xFFFE` to AT, `0x00FF` to no
family, anything else to AT), and the wire protocol is set to XT exactly
when the classified family is XT. -/
theorem readid_classify_matches_spec (id : Nat) (h : id < 65536) :
    readid_classify id = spec_classify id ∧
      (protocol_for_kind (readid_classify id) = .XT ↔ readid_classify id = .PC_XT) := by
  constructor
  · have hab : (id >>> 8 = 0xAB) ↔ (id &&& 0xFF00 = 0xAB00) :=
      (hi_byte_iff id 0xAB h).symm
    have hbf : (id >>> 8 = 0xBF) ↔ (id &&& 0xFF00 = 0xBF00) :=
      (hi_byte_iff id 0xBF h).symm
    simp only [readid_classify, spec_classify, hab, hbf]
  · cases hk : readid_classify id <;> simp [protocol_for_kind]

/-- Witness for `readid_classify_matches_spec` at ID `0xBF42`
(a Terminal-family ID). -/
theorem readid_classify_matches_spec_witness :
    readid_classify 0xBF42 = spec_classify 0xBF42 ∧
      (protocol_for_kind (readid_classify 0xBF42) = .XT ↔ readid_classify 0xBF42 = .PC_XT) :=
  readid_classify_matches_spec 0xBF42 (by norm_num)

theorem getD_set_ne (l : List Nat) (i j v : Nat) (h : i ≠ j) :
    (l.set i v).getD j 0 = l.getD j 0 := by
  simp [List.getD, List.getElem?_set_ne h]

theorem getD_set_self (l : List Nat) (i v : Nat) (h : i < l.length) :
    (l.set i v).getD i 0 = v := by
  simp [List.getD, List.getElem?_set_self, h]

theorem set_getD_cancel (l : List Nat) (i : Nat) : l.set i (l.getD i 0) = l := by
  rcases Nat.lt_or_ge i l.length with h | h
  · simp only [List.getD, List.getElem?_eq_getElem h, Option.getD_some]
    exact List.ext_getElem (by simp) (fun n h1 h2 => by
      by_cases hne : i = n
      · subst hne; simp [List.getElem?_eq_getElem h2]
      · simp [List.getElem_set_ne hne])
  · simp [List.set_eq_of_length_le h]

theorem COL_lt_8 (c : Nat) : COL c < 8 := by
  have : COL c = c % 8 := Nat.and_pow_two_sub_one_eq_mod c 3
  omega

theorem testBit_ge_8 (old i : Nat) (hold : old < 256) (hi : 8 ≤ i) :
    old.testBit i = false := by
  have h256 : (256 : Nat) ≤ 2 ^ i := by
    calc (256 : Nat) = 2 ^ 8 := by norm_num
    _ ≤ 2 ^ i := Nat.pow_le_pow_right (by norm_num) hi
  exact Nat.testBit_lt_two_pow (lt_of_lt_of_le hold h256)

/-- Setting bit `col` of a row byte and clearing it again with the 8-bit
complement mask restores the byte, provided the bit was clear and the byte
fits in 8 bits. -/
theorem or_and_comp (old col : Nat) (hold : old < 256) (hcol : col < 8)
    (hbit : old.testBit col = false) :
    (old ||| 1 <<< col) &&& (0xFF ^^^ 1 <<< col) = old := by
  apply Nat.eq_of_testBit_eq
  intro i
  have hff : (0xFF : Nat) = 2 ^ 8 - 1 := rfl
  rw [Nat.testBit_and, Nat.testBit_or, Nat.testBit_xor, hff, Nat.one_shiftLeft,
    Nat.testBit_two_pow, Nat.testBit_two_pow_sub_one]
  by_cases hic : col = i
  · subst hic
    simp [hbit, hcol]
  · by_cases hi8 : i < 8
    · simp [hic, hi8]
    · simp [hic, hi8, testBit_ge_8 old i hold (by omega)]

/-- C7 (amended): `matrix_make(c)` followed by `matrix_break(c)` restores
the prior matrix state, provided the bit for `c` was clear beforehand (the
row being a `uint8_t` and `ROW c` in range). When the bit is already set,
`matrix_make` is a no-op but `matrix_break` clears it, so the prior state
is not restored (see the counterexample). -/
theorem make_break_roundtrip (m : Matrix) (c : Nat)
    (hrow : m.getD (ROW c) 0 < 256)
    (hlen : ROW c < m.length)
    (hoff : matrix_is_on m (ROW c) (COL c) = false) :
    matrix_break (matrix_make m c) c = m := by
  have hbit : (m.getD (ROW c) 0).testBit (COL c) = false := by
    rw [← matrix_is_on_eq_testBit]; exact hoff
  unfold matrix_make
  rw [hoff]
  simp only [Bool.false_eq_true, if_false]
  unfold matrix_break
  have hg : ((m.set (ROW c) (m.getD (ROW c) 0 ||| 1 <<< COL c)).getD (ROW c) 0)
      = m.getD (ROW c) 0 ||| 1 <<< COL c :=
    getD_set_self _ _ _ (by simpa using hlen)
  rw [matrix_is_on_eq_testBit, hg]
  have hon : (m.getD (ROW c) 0 ||| 1 <<< COL c).testBit (COL c) = true := by
    simp [Nat.testBit_or, Nat.one_shiftLeft, Nat.testBit_two_pow]
  rw [hon]
  simp only [if_true]
  rw [List.set_set, or_and_comp _ _ hrow (COL_lt_8 c) hbit, set_getD_cancel]

/-- Counterexample to C7 as stated: with the bit for code `0` already set,
`make(0)` is a no-op and `break(0)` clears the bit, so the matrix is not
restored to its prior state. -/
theorem make_break_roundtrip_cex :
    matrix_is_on (1 :: List.replicate 31 0) (ROW 0) (COL 0) = true ∧
    matrix_break (matrix_make (1 :: List.replicate 31 0) 0) 0 ≠ 1 :: List.replicate 31 0 := by
  decide

/-- Witness for `make_break_roundtrip`: code `1` on a matrix whose row 0
is `0x01` (bit 1 clear). -/
theorem make_break_roundtrip_witness :
    matrix_break (matrix_make (1 :: List.replicate 31 0) 1) 1 = 1 :: List.replicate 31 0 :=
  make_break_roundtrip (1 :: List.replicate 31 0) 1 (by decide) (by decide) (by decide)

/-- C10: `matrix_make` and `matrix_break` modify at most bit `COL c` of
row `ROW c`: every other row, and every other bit of that row, is left
unchanged (the touched row being a `uint8_t`). -/
theorem make_break_frame (m : Matrix) (c : Nat)
    (hrow : m.getD (ROW c) 0 < 256) :
    (∀ r, r ≠ ROW c →
      (matrix_make m c).getD r 0 = m.getD r 0 ∧
      (matrix_break m c).getD r 0 = m.getD r 0) ∧
    (∀ b, b ≠ COL c →
      ((matrix_make m c).getD (ROW c) 0).testBit b = (m.getD (ROW c) 0).testBit b ∧
      ((matrix_break m c).getD (ROW c) 0).testBit b = (m.getD (ROW c) 0).testBit b) := by
  constructor
  · intro r hr
    constructor
    · unfold matrix_make
      split
      · rfl
      · exact getD_set_ne _ _ _ _ (fun hh => hr hh.symm)
    · unfold matrix_break
      split
      · exact getD_set_ne _ _ _ _ (fun hh => hr hh.symm)
      · rfl
  · intro b hb
    constructor
    · unfold matrix_make
      split
      · rfl
      · rcases Nat.lt_or_ge (ROW c) m.length with hl | hl
        · rw [getD_set_self _ _ _ hl]
          have hcb : (decide (COL c = b)) = false := decide_eq_false (fun hh => hb hh.symm)
          simp [Nat.testBit_or, Nat.one_shiftLeft, Nat.testBit_two_pow, hcb]
        · rw [List.set_eq_of_length_le hl]
    · unfold matrix_break
      split
      · rcases Nat.lt_or_ge (ROW c) m.length with hl | hl
        · rw [getD_set_self _ _ _ hl]
          have hff : (0xFF : Nat) = 2 ^ 8 - 1 := rfl
          rw [Nat.testBit_and, hff, Nat.one_shiftLeft, Nat.testBit_xor,
            Nat.testBit_two_pow, Nat.testBit_two_pow_sub_one]
          have hcb : (decide (COL c = b)) = false := decide_eq_false (fun hh => hb hh.symm)
          by_cases hb8 : b < 8
          · simp [hcb, hb8]
          · have hge := testBit_ge_8 (m.getD (ROW c) 0) b hrow (by omega)
            simp [List.getD] at hge
            simp [hcb, hb8, hge]
        · rw [List.set_eq_of_length_le hl]
      · rfl

/-- Witness for `make_break_frame`: code `0` on a matrix whose row 0 is
`0x01`; row 5 and bit 3 of row 0 are untouched by both operations. -/
theorem make_break_frame_witness :
    ((matrix_make (1 :: List.replicate 31 0) 0).getD 5 0 = (1 :: List.replicate 31 0 : Matrix).getD 5 0 ∧
      (matrix_break (1 :: List.replicate 31 0) 0).getD 5 0 = (1 :: List.replicate 31 0 : Matrix).getD 5 0) ∧
    (((matrix_make (1 :: List.replicate 31 0) 0).getD (ROW 0) 0).testBit 3
        = ((1 :: List.replicate 31 0 : Matrix).getD (ROW 0) 0).testBit 3 ∧
      ((matrix_break (1 :: List.replicate 31 0) 0).getD (ROW 0) 0).testBit 3
        = ((1 :: List.replicate 31 0 : Matrix).getD (ROW 0) 0).testBit 3) :=
  ⟨(make_break_frame (1 :: List.replicate 31 0) 0 (by decide)).1 5 (by decide),
   (make_break_frame (1 :: List.replicate 31 0) 0 (by decide)).2 3 (by decide)⟩

theorem is_on_make_ne (m : Matrix) (code r c : Nat)
    (hne : ¬(ROW code = r ∧ COL code = c)) :
    matrix_is_on (matrix_make m code) r c = matrix_is_on m r c := by
  unfold matrix_make
  split
  · rfl
  · by_cases hr : ROW code = r
    · subst hr
      have hcb : (decide (COL code = c)) = false :=
        decide_eq_false (fun hc => hne ⟨rfl, hc⟩)
      rcases Nat.lt_or_ge (ROW code) m.length with hl | hl
      · rw [matrix_is_on_eq_testBit, getD_set_self _ _ _ hl, matrix_is_on_eq_testBit]
        simp [Nat.testBit_or, Nat.one_shiftLeft, Nat.testBit_two_pow, hcb]
      · rw [List.set_eq_of_length_le hl]
    · rw [matrix_is_on_eq_testBit, getD_set_ne _ _ _ _ hr, ← matrix_is_on_eq_testBit]

theorem is_on_make_self (m : Matrix) (code : Nat) (hl : ROW code < m.length) :
    matrix_is_on (matrix_make m code) (ROW code) (COL code) = true := by
  unfold matrix_make
  split
  · next h => exact h
  · rw [matrix_is_on_eq_testBit, getD_set_self _ _ _ hl]
    simp [Nat.testBit_or, Nat.one_shiftLeft, Nat.testBit_two_pow]

theorem length_le_is_on_false (m : Matrix) (r c : Nat) (h : m.length ≤ r) :
    matrix_is_on m r c = false := by
  unfold matrix_is_on
  rw [List.getD_eq_default _ _ h]
  simp

theorem is_on_break_false (m : Matrix) (code r c : Nat)
    (h : matrix_is_on m r c = false) :
    matrix_is_on (matrix_break m code) r c = false := by
  unfold matrix_break
  split
  · next hon =>
    by_cases hr : ROW code = r
    · subst hr
      have hl : ROW code < m.length := by
        by_contra hge
        rw [length_le_is_on_false m _ _ (by omega)] at hon
        exact Bool.false_ne_true hon
      rw [matrix_is_on_eq_testBit, getD_set_self _ _ _ hl]
      rw [matrix_is_on_eq_testBit] at h
      rw [Nat.testBit_and, h, Bool.false_and]
    · rw [matrix_is_on_eq_testBit, getD_set_ne _ _ _ _ hr, ← matrix_is_on_eq_testBit]
      exact h
  · exact h

theorem is_on_break_self (m : Matrix) (code : Nat) :
    matrix_is_on (matrix_break m code) (ROW code) (COL code) = false := by
  unfold matrix_break
  split
  · next hon =>
    have hl : ROW code < m.length := by
      by_contra hge
      rw [length_le_is_on_false m _ _ (by omega)] at hon
      exact Bool.false_ne_true hon
    rw [matrix_is_on_eq_testBit, getD_set_self _ _ _ hl]
    have hff : (0xFF : Nat) = 2 ^ 8 - 1 := rfl
    rw [Nat.testBit_and, hff, Nat.one_shiftLeft, Nat.testBit_xor,
      Nat.testBit_two_pow, Nat.testBit_two_pow_sub_one]
    simp [COL_lt_8 code]
  · next hoff => simpa using hoff

theorem is_on_clear (r c : Nat) : matrix_is_on matrix_clear r c = false := by
  have h0 : matrix_clear.getD r 0 = 0 := by
    simp only [matrix_clear, MATRIX_ROWS, List.getD]
    cases h : (List.replicate 32 (0 : Nat)).get? r with
    | none => rfl
    | some a =>
        have ha := List.eq_of_mem_replicate (List.get?_mem h)
        simp [ha]
  unfold matrix_is_on
  rw [h0]
  simp

theorem pause_prestep_off (m : Matrix) :
    matrix_is_on (pause_prestep m) (ROW PAUSE) (COL PAUSE) = false := by
  unfold pause_prestep
  split
  · exact is_on_break_self m PAUSE
  · next h => simpa using h

theorem pause_prestep_length (m : Matrix) :
    (pause_prestep m).length = m.length := by
  unfold pause_prestep matrix_break
  split
  · simp
  · rfl

theorem row_lt_128_ne_pause : ∀ x, x < 128 → ¬(ROW x = ROW PAUSE ∧ COL x = COL PAUSE) := by
  decide

theorem or128_ne_pause :
    ∀ x, x < 128 → x ≠ 0x7E → ¬(ROW (x ||| 0x80) = ROW PAUSE ∧ COL (x ||| 0x80) = COL PAUSE) := by
  decide

theorem f7_ne_pause : ¬(ROW F7 = ROW PAUSE ∧ COL F7 = COL PAUSE) := by decide

theorem prtscn_ne_pause : ¬(ROW PRINT_SCREEN = ROW PAUSE ∧ COL PRINT_SCREEN = COL PAUSE) := by
  decide

/-- C4: on every `process_cs2` call on a 32-row matrix, the Pause bit
(matrix position `0xFE`: row `0x1F`, col 6) of the resulting matrix is set
exactly when the consumed byte completes a Pause sequence; in particular
it is cleared on entry in every other case, and when the receive source
yields no byte the call does nothing but the Pause pre-clear. -/
theorem pause_bit_after_call (m : Matrix) (st : CS2State) (inp : Option Nat)
    (hlen : m.length = MATRIX_ROWS) :
    matrix_is_on (process_cs2 m st inp).matrix (ROW PAUSE) (COL PAUSE)
        = completes_pause st inp ∧
    process_cs2 m st none = ⟨pause_prestep m, st, 0, false⟩ := by
  refine ⟨?_, rfl⟩
  have hp := pause_prestep_off m
  have hplen : ROW PAUSE < (pause_prestep m).length := by
    rw [pause_prestep_length, hlen]
    decide
  rcases inp with _ | code
  · simpa [process_cs2, completes_pause] using hp
  · cases st <;> simp only [process_cs2, cs2_step]
    case INIT =>
      split_ifs with h1 h2 h3 h4 h5 h6 h7 h8
      · simpa [completes_pause] using hp
      · simpa [completes_pause] using hp
      · simpa [completes_pause] using hp
      · rw [show CS2Result.matrix ⟨matrix_make (pause_prestep m) F7, .INIT, 0, false⟩
            = matrix_make (pause_prestep m) F7 from rfl,
          is_on_make_ne _ _ _ _ f7_ne_pause]
        simpa [completes_pause] using hp
      · rw [show CS2Result.matrix ⟨matrix_make (pause_prestep m) PRINT_SCREEN, .INIT, 0, false⟩
            = matrix_make (pause_prestep m) PRINT_SCREEN from rfl,
          is_on_make_ne _ _ _ _ prtscn_ne_pause]
        simpa [completes_pause] using hp
      · simp [completes_pause, is_on_clear]
      · simpa [completes_pause] using hp
      · rw [show CS2Result.matrix ⟨matrix_make (pause_prestep m) code, .INIT, 0, false⟩
            = matrix_make (pause_prestep m) code from rfl,
          is_on_make_ne _ _ _ _ (row_lt_128_ne_pause code h8)]
        simpa [completes_pause] using hp
      · simp [completes_pause, is_on_clear]
    case E0 =>
      split_ifs with h1 h2 h3 h4
      · simpa [completes_pause] using hp
      · simpa [completes_pause] using hp
      · simpa [completes_pause] using hp
      · rw [show CS2Result.matrix ⟨matrix_make (pause_prestep m) (code ||| 0x80), .INIT, 0, false⟩
            = matrix_make (pause_prestep m) (code ||| 0x80) from rfl,
          is_on_make_ne _ _ _ _ (or128_ne_pause code h4 h2)]
        simpa [completes_pause] using hp
      · simp [completes_pause, is_on_clear]
    case F0 =>
      split_ifs with h1 h2 h3
      · simpa [completes_pause] using is_on_break_false _ F7 _ _ hp
      · simpa [completes_pause] using is_on_break_false _ PRINT_SCREEN _ _ hp
      · simpa [completes_pause] using is_on_break_false _ code _ _ hp
      · simp [completes_pause, is_on_clear]
    case E0_F0 =>
      split_ifs with h1 h2
      · simpa [completes_pause] using hp
      · simpa [completes_pause] using is_on_break_false _ (code ||| 0x80) _ _ hp
      · simp [completes_pause, is_on_clear]
    case E1 =>
      split_ifs <;> simpa [completes_pause] using hp
    case E1_14 =>
      split_ifs <;> simpa [completes_pause] using hp
    case E1_14_77 =>
      split_ifs <;> simpa [completes_pause] using hp
    case E1_14_77_E1 =>
      split_ifs <;> simpa [completes_pause] using hp
    case E1_14_77_E1_F0 =>
      split_ifs <;> simpa [completes_pause] using hp
    case E1_14_77_E1_F0_14 =>
      split_ifs <;> simpa [completes_pause] using hp
    case E1_14_77_E1_F0_14_F0 =>
      split_ifs with h1
      · subst h1
        simpa [completes_pause, beq_iff_eq] using is_on_make_self (pause_prestep m) PAUSE hplen
      · have hbeq : (code == (0x77 : Nat)) = false := by simpa using h1
        have hst : (CS2State.E1_14_77_E1_F0_14_F0 == CS2State.E0_7E_E0_F0) = false := by decide
        simpa [completes_pause, hbeq, hst] using hp
    case E0_7E =>
      split_ifs <;> simpa [completes_pause] using hp
    case E0_7E_E0 =>
      split_ifs <;> simpa [completes_pause] using hp
    case E0_7E_E0_F0 =>
      split_ifs with h1
      · subst h1
        simpa [completes_pause, beq_iff_eq] using is_on_make_self (pause_prestep m) PAUSE hplen
      · have hbeq : (code == (0x7E : Nat)) = false := by simpa using h1
        have hst : (CS2State.E0_7E_E0_F0 == CS2State.E1_14_77_E1_F0_14_F0) = false := by decide
        simpa [completes_pause, hbeq, hst] using hp

/-- Witness for `pause_bit_after_call` on the all-zero matrix in state
`E0_7E_E0_F0` consuming `0x7E` (the byte that completes Control'd Pause). -/
theorem pause_bit_after_call_witness :
    matrix_is_on (process_cs2 matrix_clear .E0_7E_E0_F0 (some 0x7E)).matrix
        (ROW PAUSE) (COL PAUSE) = completes_pause .E0_7E_E0_F0 (some 0x7E) ∧
    process_cs2 matrix_clear .E0_7E_E0_F0 none = ⟨pause_prestep matrix_clear, .E0_7E_E0_F0, 0, false⟩ :=
  pause_bit_after_call matrix_clear .E0_7E_E0_F0 (some 0x7E) (by decide)

/-- C1 (amended): an unexpected byte clears the matrix, invokes the
host's clear-keyboard primitive and returns the decoder to `Init` in the
states `Init`, `E0`, `F0` and `E0_F0` (where "unexpected" means a byte
`>= 0x80` that is not one of the state's special-cased bytes); in the
Pause and Control'd-Pause states, a byte that fails to match the expected
next byte of the sequence only returns the decoder to `Init`, without
clearing the matrix and without invoking the clear-keyboard primitive. -/
theorem cs2_corruption_behavior (m : Matrix) (b : Nat) :
    (0x80 ≤ b → b ≠ 0xE0 → b ≠ 0xF0 → b ≠ 0xE1 → b ≠ 0x83 → b ≠ 0x84 →
      b ≠ 0xAA → b ≠ 0xFC →
      process_cs2 m .INIT (some b) = ⟨matrix_clear, .INIT, 0, true⟩) ∧
    (0x80 ≤ b → b ≠ 0xF0 →
      process_cs2 m .E0 (some b) = ⟨matrix_clear, .INIT, 0, true⟩) ∧
    (0x80 ≤ b → b ≠ 0x83 → b ≠ 0x84 →
      process_cs2 m .F0 (some b) = ⟨matrix_clear, .INIT, 0, true⟩) ∧
    (0x80 ≤ b →
      process_cs2 m .E0_F0 (some b) = ⟨matrix_clear, .INIT, 0, true⟩) ∧
    (∀ st ∈ pause_states, b ≠ expected_byte st →
      process_cs2 m st (some b) = ⟨pause_prestep m, .INIT, 0, false⟩) := by
  refine ⟨?_, ?_, ?_, ?_, ?_⟩
  · intro hb h1 h2 h3 h4 h5 h6 h7
    simp only [process_cs2, cs2_step]
    split_ifs <;> first | rfl | omega
  · intro hb h1
    simp only [process_cs2, cs2_step]
    split_ifs <;> first | rfl | omega
  · intro hb h1 h2
    simp only [process_cs2, cs2_step]
    split_ifs <;> first | rfl | omega
  · intro hb
    simp only [process_cs2, cs2_step]
    split_ifs <;> first | rfl | omega
  · intro st hst hb
    fin_cases hst <;>
      simp only [expected_byte] at hb <;>
      simp only [process_cs2, cs2_step] <;>
      split_ifs <;> first | rfl | omega

/-- Counterexample to C1 as stated: the byte `0xAB` is unexpected in the
Pause state `E1` (the expected next byte is `0x14`), yet consuming it
leaves the matrix untouched (and not cleared) and does not invoke the
host's clear-keyboard primitive. -/
theorem cs2_corruption_cex :
    (process_cs2 (1 :: List.replicate 31 0) .E1 (some 0xAB)).matrix
        = 1 :: List.replicate 31 0 ∧
    (process_cs2 (1 :: List.replicate 31 0) .E1 (some 0xAB)).clearKbd = false ∧
    (process_cs2 (1 :: List.replicate 31 0) .E1 (some 0xAB)).state = .INIT ∧
    (1 :: List.replicate 31 0 : Matrix) ≠ matrix_clear := by
  decide

/-- Witness for `cs2_corruption_behavior`: the corrupt byte `0x90` in
state `Init` on the all-zero matrix. -/
theorem cs2_corruption_behavior_witness :
    process_cs2 (List.replicate 32 0) .INIT (some 0x90) = ⟨matrix_clear, .INIT, 0, true⟩ :=
  (cs2_corruption_behavior (List.replicate 32 0) 0x90).1 (by decide) (by decide)
    (by decide) (by decide) (by decide) (by decide) (by decide) (by decide)

/-- C8 (amended): starting from `Init`, each of the shadow-shift byte
sequences `E0 12`, `E0 59`, `E0 F0 12`, `E0 F0 59` leaves the matrix
unchanged, returns the decoder to `Init` and never invokes the host's
clear-keyboard primitive — provided the Pause bit is clear on entry (the
Pause pseudo-break pre-step clears it otherwise, changing the matrix). -/
theorem shadow_shift_no_change (m : Matrix)
    (hP : matrix_is_on m (ROW PAUSE) (COL PAUSE) = false) :
    process_run m .INIT [0xE0, 0x12] = ⟨m, .INIT, false⟩ ∧
    process_run m .INIT [0xE0, 0x59] = ⟨m, .INIT, false⟩ ∧
    process_run m .INIT [0xE0, 0xF0, 0x12] = ⟨m, .INIT, false⟩ ∧
    process_run m .INIT [0xE0, 0xF0, 0x59] = ⟨m, .INIT, false⟩ := by
  have hpp : pause_prestep m = m := by
    unfold pause_prestep
    rw [hP]
    simp
  refine ⟨?_, ?_, ?_, ?_⟩ <;>
    simp [process_run, process_cs2, cs2_step, hpp]

/-- Counterexample to C8 as stated: on a matrix whose Pause bit is set,
feeding `E0 12` from `Init` changes the matrix (the pre-step pseudo-break
clears the Pause bit). -/
theorem shadow_shift_cex :
    (process_run (List.replicate 31 0 ++ [64]) .INIT [0xE0, 0x12]).matrix
      ≠ List.replicate 31 0 ++ [64] := by
  decide

/-- Witness for `shadow_shift_no_change` on the all-zero matrix. -/
theorem shadow_shift_no_change_witness :
    process_run (List.replicate 32 0) .INIT [0xE0, 0x12] = ⟨List.replicate 32 0, .INIT, false⟩ ∧
    process_run (List.replicate 32 0) .INIT [0xE0, 0x59] = ⟨List.replicate 32 0, .INIT, false⟩ ∧
    process_run (List.replicate 32 0) .INIT [0xE0, 0xF0, 0x12] = ⟨List.replicate 32 0, .INIT, false⟩ ∧
    process_run (List.replicate 32 0) .INIT [0xE0, 0xF0, 0x59] = ⟨List.replicate 32 0, .INIT, false⟩ :=
  shadow_shift_no_change (List.replicate 32 0) (by decide)

/-- C6 (amended): `read_keyboard_id` sends `0xF4` (enable scanning)
exactly when `0xF2` was acknowledged with `0xFA` and a first ID byte
arrived before the timeout; in the no-ACK (ID `0xFFFF`), broken-handshake
(ID `0xFFFE`) and reply-timeout (ID `0x0000`) cases it returns early
without sending `0xF4`. -/
theorem readid_sends_f4_iff (f5 f2 r1 r2 : Int) :
    ((read_keyboard_id f5 f2 r1 r2).sends.contains 0xF4)
      = (f2 == 0xFA && !(r1 == -1)) := by
  unfold read_keyboard_id
  split_ifs with h1 h2 h3 <;> simp_all

/-- Counterexample to C6 as stated: when the send of `0xF2` fails (ID
`0xFFFF`), the byte `0xF4` is never sent. -/
theorem readid_f4_not_sent_cex :
    read_keyboard_id 0xFA (-1) (-1) (-1) = ⟨0xFFFF, [0xF5, 0xF2]⟩ ∧
    ¬ (0xF4 ∈ (read_keyboard_id 0xFA (-1) (-1) (-1)).sends) := by
  decide

/-- C9: with `0xF2` acknowledged (`0xFA`), a first ID byte `b1`, and a
timeout (`-1`) on the second read, `read_keyboard_id` returns
`(b1 << 8) | 0xFF` because `-1 & 0xFF = 0xFF` is OR-ed into the low byte;
in particular a first byte `0xAB` yields `0xABFF`, which still classifies
as the AT family. -/
theorem readid_second_byte_timeout (f5 : Int) (b1 : Nat) (hb1 : b1 < 256) :
    read_keyboard_id f5 0xFA (b1 : Int) (-1)
        = ⟨(b1 <<< 8) ||| 0xFF, [0xF5, 0xF2, 0xF4]⟩ ∧
    readid_classify ((0xAB <<< 8) ||| 0xFF) = .PC_AT := by
  constructor
  · unfold read_keyboard_id
    rw [if_neg (show ¬((0xFA : Int) = -1) by decide)]
    rw [if_neg (show ¬((0xFA : Int) ≠ 0xFA) by simp)]
    rw [if_neg (show ¬((b1 : Int) = -1) by omega)]
    have h1 : maskFF (b1 : Int) = b1 := by
      unfold maskFF
      omega
    have h2 : maskFF (-1) = 0xFF := by decide
    rw [h1, h2]
  · decide

/-- Witness for `readid_second_byte_timeout` at first ID byte `0xAB`. -/
theorem readid_second_byte_timeout_witness :
    read_keyboard_id 0 0xFA ((0xAB : Nat) : Int) (-1)
        = ⟨(0xAB <<< 8) ||| 0xFF, [0xF5, 0xF2, 0xF4]⟩ ∧
    readid_classify ((0xAB <<< 8) ||| 0xFF) = .PC_AT :=
  readid_second_byte_timeout 0 0xAB (by decide)

/-- A UKP below `0x80` (high nibble addressing one of 8 universal rows)
makes the code's `(pos & 0x70) >> 4` coincide with the plain `pos >> 4`. -/
theorem and70_shr4 : ∀ p, p < 128 → (p &&& 0x70) >>> 4 = p >>> 4 := by
  decide

/-- C2: `action_for_key` returns `ACTION_NO` when the keyboard family is
unset; otherwise it looks up the UKP in the translation table of the
active family (`unimap_cs1` for XT, `unimap_cs2` for AT, `unimap_cs3` for
Terminal), returns `ACTION_NO` when the UKP equals the `NO` sentinel, and
otherwise returns the layered action table entry at
`(layer, ukp >> 4, ukp & 0x0F)` (the UKP being a valid position below
`0x80`, per the spec's UKP format). -/
theorem action_for_key_spec (env : UnimapEnv) (layer row col : Nat) :
    action_for_key env .NONE layer row col = env.ACTION_NO ∧
    action_for_key env .OTHER layer row col = env.ACTION_NO ∧
    (env.cs1 row col = env.UNIMAP_NO →
      action_for_key env .PC_XT layer row col = env.ACTION_NO) ∧
    (env.cs1 row col ≠ env.UNIMAP_NO → env.cs1 row col < 0x80 →
      action_for_key env .PC_XT layer row col
        = env.actionmaps layer (env.cs1 row col >>> 4) (env.cs1 row col &&& 0x0F)) ∧
    (env.cs2 row col = env.UNIMAP_NO →
      action_for_key env .PC_AT layer row col = env.ACTION_NO) ∧
    (env.cs2 row col ≠ env.UNIMAP_NO → env.cs2 row col < 0x80 →
      action_for_key env .PC_AT layer row col
        = env.actionmaps layer (env.cs2 row col >>> 4) (env.cs2 row col &&& 0x0F)) ∧
    (env.cs3 row col = env.UNIMAP_NO →
      action_for_key env .PC_TERMINAL layer row col = env.ACTION_NO) ∧
    (env.cs3 row col ≠ env.UNIMAP_NO → env.cs3 row col < 0x80 →
      action_for_key env .PC_TERMINAL layer row col
        = env.actionmaps layer (env.cs3 row col >>> 4) (env.cs3 row col &&& 0x0F)) := by
  refine ⟨rfl, rfl, ?_, ?_, ?_, ?_, ?_, ?_⟩
  · intro h1
    simp [action_for_key, h1]
  · intro h1 h2
    simp [action_for_key, h1, and70_shr4 _ h2]
  · intro h1
    simp [action_for_key, h1]
  · intro h1 h2
    simp [action_for_key, h1, and70_shr4 _ h2]
  · intro h1
    simp [action_for_key, h1]
  · intro h1 h2
    simp [action_for_key, h1, and70_shr4 _ h2]

/-- Witness for `action_for_key_spec` at a concrete environment whose XT
table yields the UKP `0x23`. -/
theorem action_for_key_spec_witness :
    action_for_key
        ⟨fun _ _ => 0x23, fun _ _ => 0x47, fun _ _ => 0x51,
         fun l r c => l + 100 * r + 10 * c, 0xFF, 0⟩ .PC_XT 2 3 4
      = (⟨fun _ _ => 0x23, fun _ _ => 0x47, fun _ _ => 0x51,
         fun l r c => l + 100 * r + 10 * c, 0xFF, 0⟩ : UnimapEnv).actionmaps 2 (0x23 >>> 4) (0x23 &&& 0x0F) :=
  (action_for_key_spec
    ⟨fun _ _ => 0x23, fun _ _ => 0x47, fun _ _ => 0x51,
     fun l r c => l + 100 * r + 10 * c, 0xFF, 0⟩ 2 3 4).2.2.2.1 (by decide) (by decide)

end IbmpcUsb
